import Mathlib

/-!
Verification of the MCP client of `src/mcp/client.ts` (class `McpClient`).

The TypeScript client is event-driven: it spawns one child process per
configured server, speaks newline-delimited JSON-RPC over the process
pipes, correlates in-flight requests by integer id in a pending-request
map with one deadline timer per request, and exposes
`connect` / `callTool` / `disconnect` / `disconnectAll` to the rest of
the application.

The shallow embedding below represents:
- a server instance (`McpServerInstance`) by its observable fields: the
  cached tool list, the monotone request counter `requestId`, the set of
  ids with a live entry in `pendingRequests`, the set of ids whose
  deadline timer is still scheduled (`activeTimers`), the `connected`
  flag, `lastError`, and the process exit code;
- the registry (`McpClientState`) as an association list from server
  name to instance, mirroring the JS `Map` semantics;
- the correlation table dynamics as an executable step function over
  events (request registration, response line, timer firing, stdin
  write error), each step returning the assigned ids and the
  settlements (resolve / reject) it delivers;
- the sequential entry points `connect`, `callTool`, `disconnect`,
  `disconnectAll` as pure functions from a state and an environment
  record (what the config file, the spawned process and the remote
  server do at each await point) to a new state plus their observable
  outcome: the thrown-or-returned result, the wire actions emitted in
  order, whether the process was killed, and how many connect attempts
  were made.
-/

/-- MCP server configuration (interface `McpServerConfig`). -/
structure McpServerConfig where
  command : String
  args : List String
  env : List (String × String)
  cwd : Option String
deriving DecidableEq

/-- MCP configuration file contents (interface `McpConfig`): the
`mcpServers` record, as an association list name to config. -/
structure McpConfig where
  mcpServers : List (String × McpServerConfig)
deriving DecidableEq

/-- One advertised tool (`McpToolInfo`): name, optional description and
an opaque input schema (modelled as an association list, empty when the
wire value was absent). -/
structure McpToolInfo where
  name : String
  description : Option String
  inputSchema : List (String × String)
deriving DecidableEq

/-- One content item of a tool result (`McpContentItem`). -/
structure McpContentItem where
  type : String
  text : Option String
  data : Option String
  mimeType : Option String
deriving DecidableEq

/-- Result of a tool call (`McpToolResult`): content items plus the
`isError` flag. `callTool` always returns such a value and never
throws; failures are encoded with `isError = true`. -/
structure McpToolResult where
  content : List McpContentItem
  isError : Bool
deriving DecidableEq

/-- A connected server instance (interface `McpServerInstance`).
`pendingRequests` holds the ids that currently have an entry in the
pending-request map; `activeTimers` holds the ids whose deadline timer
(created by `sendRequest` via `setTimeout`) has neither fired nor been
cleared. `exitCode` is `process.exitCode` (`none` while the process is
alive). -/
structure McpServerInstance where
  name : String
  tools : List McpToolInfo
  requestId : Nat
  pendingRequests : List Nat
  activeTimers : List Nat
  connected : Bool
  lastError : Option String
  exitCode : Option Int
deriving DecidableEq

/-- Registry state of the client (`McpClient.servers`): a JS `Map` from
server name to instance, modelled as an association list with at most
one entry per key. -/
structure McpClientState where
  servers : List (String × McpServerInstance)
deriving DecidableEq

/-- Lookup in an association list (JS `Map.get`). -/
def alistLookup {α : Type} (l : List (String × α)) (nm : String) : Option α :=
  match l with
  | [] => none
  | (k, v) :: t => if k = nm then some v else alistLookup t nm

/-- Key removal from an association list (JS `Map.delete`). -/
def alistErase {α : Type} (l : List (String × α)) (nm : String) : List (String × α) :=
  l.filter (fun p => p.1 != nm)

/-- Key insertion into an association list (JS `Map.set`). -/
def alistInsert {α : Type} (l : List (String × α)) (nm : String) (v : α) :
    List (String × α) :=
  (nm, v) :: alistErase l nm

/-- Boolean success test on `Except`. -/
def exceptOk {ε α : Type} : Except ε α → Bool
  | Except.ok _ => true
  | Except.error _ => false

deriving instance DecidableEq for Except

/-! ## Error classifier (`formatError`, `isOccupiedError`)

`McpClient.formatError` inspects the lower-cased error text with a
fixed chain of substring tests and rewrites the message shown to the
user; it is called only when rendering messages, never by the state
transitions below. -/

/-- Whether `needle` occurs as a contiguous run at the front of `hay`. -/
def charsLeading : List Char → List Char → Bool
  | [], _ => true
  | _ :: _, [] => false
  | a :: as, b :: bs => a == b && charsLeading as bs

/-- Whether `needle` occurs as a contiguous run anywhere in `hay`
(JS `String.includes`). -/
def charsContains (needle : List Char) : List Char → Bool
  | [] => charsLeading needle []
  | b :: bs => charsLeading needle (b :: bs) || charsContains needle bs

/-- Lower-cased character sequence of a string
(JS `String.toLowerCase`, on the code points the tests use). -/
def lowerChars (s : String) : List Char :=
  s.data.map Char.toLower

/-- The occupied-server test of `formatError` and `isOccupiedError`:
any of the four substrings in the lower-cased text. -/
def occupiedMatch (l : List Char) : Bool :=
  charsContains ("already connected").data l ||
  charsContains ("in use").data l ||
  charsContains ("address already in use").data l ||
  charsContains ("eaddrinuse").data l

/-- The missing-command test of `formatError`. -/
def notFoundMatch (l : List Char) : Bool :=
  charsContains ("not found").data l || charsContains ("enoent").data l

/-- The timeout test of `formatError`. -/
def timeoutMatch (l : List Char) : Bool :=
  charsContains ("timeout").data l

/-- The four user-messaging categories realised by the branch chain of
`formatError`. -/
inductive ErrorCategory : Type
  | occupied : ErrorCategory
  | notFound : ErrorCategory
  | timeout : ErrorCategory
  | generic : ErrorCategory
deriving DecidableEq

/-- Branch selector of `McpClient.formatError`: which of the four
message branches fires for a given raw error text. -/
def classifyError (error : String) : ErrorCategory :=
  let l := lowerChars error
  if occupiedMatch l then ErrorCategory.occupied
  else if notFoundMatch l then ErrorCategory.notFound
  else if timeoutMatch l then ErrorCategory.timeout
  else ErrorCategory.generic

/-- The `serverName` message prefix of `formatError`. -/
def errorNameLead (serverName : Option String) : String :=
  match serverName with
  | some n => n ++ (": ")
  | none => ""

/-- Message text chosen by each branch of `formatError`. -/
def categoryMessage (cat : ErrorCategory) (errorStr : String) : String :=
  match cat with
  | ErrorCategory.occupied =>
      "Server is occupied by another client (e.g., Cursor, Claude Desktop). Close the other client first."
  | ErrorCategory.notFound =>
      "Command not found. Ensure the MCP server package is installed."
  | ErrorCategory.timeout =>
      "Connection timed out. The server may be unresponsive."
  | ErrorCategory.generic => errorStr

/-- Model of `McpClient.formatError`, translated branch for branch. -/
def formatError (error : String) (serverName : Option String) : String :=
  let errorStr := error
  let pre := errorNameLead serverName
  let lowerError := lowerChars errorStr
  if occupiedMatch lowerError then
    pre ++ "Server is occupied by another client (e.g., Cursor, Claude Desktop). Close the other client first."
  else if notFoundMatch lowerError then
    pre ++ "Command not found. Ensure the MCP server package is installed."
  else if timeoutMatch lowerError then
    pre ++ "Connection timed out. The server may be unresponsive."
  else
    pre ++ errorStr

/-- Model of `McpClient.isOccupiedError`, translated directly. -/
def isOccupiedError (error : String) : Bool :=
  occupiedMatch (lowerChars error)

/-! ## Correlation table dynamics

`sendRequest` registers a pending entry under the fresh id
`++instance.requestId` and starts a deadline timer; `handleLine`
resolves or rejects the entry whose id matches an incoming response
line; the timer callback removes the entry and rejects with a timeout
error; the `stdin.write` callback removes the entry, clears the timer
and rejects on a write error. Each of these is modelled as a step on
the instance returning the settlement it delivers, if any. A promise
settles at most once; for a registered id, having an entry in
`pendingRequests` is equivalent to being unsettled (every removal path
also settles), so the steps guard their settlement on membership. -/

/-- A delivered completion for request `id`: the stored `resolve` or
`reject` callback was invoked. -/
inductive Settlement : Type
  | resolved : Nat → Settlement
  | rejected : Nat → String → Settlement
deriving DecidableEq

/-- The id a settlement belongs to. -/
def Settlement.sid : Settlement → Nat
  | Settlement.resolved i => i
  | Settlement.rejected i _ => i

/-- Remove the pending entry for `id` and clear its deadline timer. -/
def consumeId (s : McpServerInstance) (id : Nat) : McpServerInstance :=
  { s with
    pendingRequests := s.pendingRequests.filter (fun j => j != id),
    activeTimers := s.activeTimers.filter (fun j => j != id) }

/-- Registration part of `sendRequest`: assign the fresh id
`requestId + 1`, store the pending entry and start its timer.
Returns the assigned id. -/
def registerRequest (s : McpServerInstance) : McpServerInstance × Nat :=
  ({ s with
      requestId := s.requestId + 1,
      pendingRequests := (s.requestId + 1) :: s.pendingRequests,
      activeTimers := (s.requestId + 1) :: s.activeTimers }, s.requestId + 1)

/-- Dispatch part of `handleLine` for a parsed response carrying `id`:
when a pending entry exists it is removed, its timer cleared, and the
entry is rejected (when the response has an `error` object, with the
message of that object) or resolved; when no entry exists the response
is discarded and nothing changes. -/
def dispatchResponse (s : McpServerInstance) (id : Nat) (err : Option String) :
    McpServerInstance × Option Settlement :=
  if id ∈ s.pendingRequests then
    (consumeId s id,
     some (match err with
           | some m => Settlement.rejected id m
           | none => Settlement.resolved id))
  else (s, none)

/-- Deadline timer callback of `sendRequest`: fires only while the
timer is still scheduled; removes the pending entry and rejects with
the timeout message. -/
def fireTimeout (s : McpServerInstance) (id : Nat) (method : String)
    (timeoutMs : Nat) : McpServerInstance × Option Settlement :=
  if id ∈ s.activeTimers then
    (consumeId s id,
     some (Settlement.rejected id
       ("Request " ++ method ++ " timed out after " ++ toString timeoutMs ++ "ms")))
  else (s, none)

/-- The `stdin.write` error callback of `sendRequest`: clears the timer,
removes the pending entry and rejects (a no-op when the request has
already been settled). -/
def stdinWriteError (s : McpServerInstance) (id : Nat) (msg : String) :
    McpServerInstance × Option Settlement :=
  if id ∈ s.pendingRequests then
    (consumeId s id,
     some (Settlement.rejected id ("Failed to write to stdin: " ++ msg)))
  else (s, none)

/-- One event-loop callback touching the correlation table of a single
instance. `send` is a `sendRequest` that passed the liveness guard and
reached registration. -/
inductive McpEvent : Type
  | send : McpEvent
  | response : Nat → Option String → McpEvent
  | timerFire : Nat → String → Nat → McpEvent
  | writeErr : Nat → String → McpEvent
deriving DecidableEq

/-- Execute one event: the new instance state, the ids assigned (one
for `send`, none otherwise) and the settlements delivered. -/
def stepEvent (s : McpServerInstance) : McpEvent → McpServerInstance × List Nat × List Settlement
  | McpEvent.send => ((registerRequest s).1, [(registerRequest s).2], [])
  | McpEvent.response id err =>
      ((dispatchResponse s id err).1, [], (dispatchResponse s id err).2.toList)
  | McpEvent.timerFire id method ms =>
      ((fireTimeout s id method ms).1, [], (fireTimeout s id method ms).2.toList)
  | McpEvent.writeErr id msg =>
      ((stdinWriteError s id msg).1, [], (stdinWriteError s id msg).2.toList)

/-- Execute a sequence of events, concatenating assigned ids and
delivered settlements in order. -/
def runEvents (s : McpServerInstance) : List McpEvent → McpServerInstance × List Nat × List Settlement
  | [] => (s, [], [])
  | e :: es =>
      ((runEvents (stepEvent s e).1 es).1,
       (stepEvent s e).2.1 ++ (runEvents (stepEvent s e).1 es).2.1,
       (stepEvent s e).2.2 ++ (runEvents (stepEvent s e).1 es).2.2)

/-- Well-formedness of the correlation state: every pending id was
assigned (bounded by the counter), entries are unique, and every
scheduled timer belongs to a pending entry. Holds for the freshly
created instance and is preserved by every event. -/
def InstInv (s : McpServerInstance) : Prop :=
  (∀ i ∈ s.pendingRequests, i ≤ s.requestId) ∧
  s.pendingRequests.Nodup ∧
  (∀ i ∈ s.activeTimers, i ∈ s.pendingRequests)

/-- The instance object built by `connect` before the handshake:
no tools, counter at zero, empty correlation table, not connected. -/
def mkInstance (nm : String) (exitCode : Option Int) : McpServerInstance :=
  { name := nm, tools := [], requestId := 0, pendingRequests := [],
    activeTimers := [], connected := false, lastError := none,
    exitCode := exitCode }

/-! ## `handleLine`

Reader-loop callback attached to the readline interface over the
process stdout. It trims the line, discards empty lines and lines not
starting with an opening brace, attempts a JSON parse (discarding
parse failures with a debug log), and dispatches only parsed objects
that carry an id. The JSON parser itself is the library `JSON.parse`;
the model abstracts it as a function argument returning the parsed
response shape, `none` on a parse failure. -/

/-- The parsed shape `handleLine` reads off a response line: the `id`
field when present, and the `message` of the `error` object when
present. -/
structure JsonRpcResponseShape where
  id : Option Nat
  errorMessage : Option String
deriving DecidableEq

/-- The whitespace code points a trim removes (those relevant to the
line protocol). -/
def isWsChar (c : Char) : Bool :=
  c == Char.ofNat 32 || c == Char.ofNat 9 || c == Char.ofNat 10 || c == Char.ofNat 13

/-- JS `String.prototype.trim` on the character list of the line. -/
def trimChars (l : List Char) : List Char :=
  ((l.dropWhile isWsChar).reverse.dropWhile isWsChar).reverse

/-- Whether the first character of the trimmed line is the opening
brace, code point 123 (the `startsWith` check of `handleLine`). -/
def headIsBrace : List Char → Bool
  | [] => false
  | c :: _ => c == Char.ofNat 123

/-- Model of `McpClient.handleLine`, with the JSON parser abstracted as
`parse` (applied to the trimmed text). Total: every line yields a
state and an optional settlement, never an exception. -/
def handleLine (parse : String → Option JsonRpcResponseShape)
    (s : McpServerInstance) (line : String) :
    McpServerInstance × Option Settlement :=
  let trimmed := trimChars line.data
  if trimmed = [] then (s, none)
  else if headIsBrace trimmed then
    match parse (String.mk trimmed) with
    | none => (s, none)
    | some resp =>
        match resp.id with
        | none => (s, none)
        | some id => dispatchResponse s id resp.errorMessage
  else (s, none)

/-! ## `connect`

`connect` loads the config, resolves the command, spawns the process,
registers the instance in `servers`, waits 500 ms, checks for an early
exit, then drives the handshake: `initialize` request (response
awaited), `notifications/initialized` notification (no id, no response
awaited), `tools/list` request (response awaited, cached). Only after
the last step does it set `connected = true`. On any failure inside
the `try` block it kills the process when still alive, deletes the
registry entry and rethrows; failures before the instance is stored
(missing config entry, missing pipes) throw with the registry
untouched. The environment record captures what the config file, the
process and the remote server do at each await point. -/

/-- A raw tool object of the `tools/list` response. -/
structure RawTool where
  name : String
  description : Option String
  inputSchema : Option (List (String × String))
deriving DecidableEq

/-- Environment of one `connect` call: outcome of each external step. -/
structure ConnectEnv where
  config : Option McpConfig
  pipesOk : Bool
  earlyExit : Option Int
  stderrTail : String
  initResult : Except String Unit
  toolsResult : Except String (Option (List RawTool))
  aliveAtFailure : Bool
deriving DecidableEq

/-- A message written to the process stdin: a JSON-RPC request with
its assigned id, or a notification (which has no id and awaits no
response). -/
inductive WireAction : Type
  | request : Nat → String → WireAction
  | notif : String → WireAction
deriving DecidableEq

/-- The full handshake wire trace in the order `connect` emits it:
`initialize` under id 1, the `notifications/initialized` notification,
`tools/list` under id 2. -/
def fullHandshakeTrace : List WireAction :=
  [WireAction.request 1 ("initialize"),
   WireAction.notif ("notifications/initialized"),
   WireAction.request 2 ("tools/list")]

/-- Mapping of `listToolsWithTimeout` from the raw `tools/list` result
to the cached tool list: missing list becomes empty, missing schema
becomes the empty object. -/
def normalizeTools (raw : Option (List RawTool)) : List McpToolInfo :=
  (raw.getD []).map (fun t =>
    { name := t.name, description := t.description,
      inputSchema := t.inputSchema.getD [] })

/-- Config lookup `config?.mcpServers?.[serverName]`. -/
def configLookup (cfg : Option McpConfig) (nm : String) : Option McpServerConfig :=
  match cfg with
  | none => none
  | some c => alistLookup c.mcpServers nm

/-- Observable outcome of one `connect` call. -/
structure ConnectOutcome where
  state : McpClientState
  result : Except String (List McpToolInfo)
  trace : List WireAction
  killedProcess : Bool
deriving DecidableEq

/-- Model of `McpClient.connect`, translated step for step against the given
environment. -/
def connect (c : McpClientState) (nm : String) (env : ConnectEnv) : ConnectOutcome :=
  match configLookup env.config nm with
  | none =>
      { state := c,
        result := Except.error ("Server \"" ++ nm ++ "\" not found in config"),
        trace := [], killedProcess := false }
  | some _ =>
      if env.pipesOk = false then
        { state := c, result := Except.error ("Failed to create process pipes"),
          trace := [], killedProcess := false }
      else
        let inst0 := mkInstance nm env.earlyExit
        let c1 : McpClientState := { servers := alistInsert c.servers nm inst0 }
        match env.earlyExit with
        | some code =>
            { state := { servers := alistErase c1.servers nm },
              result := Except.error ("Process exited immediately with code " ++
                toString code ++ ". " ++ env.stderrTail),
              trace := [], killedProcess := false }
        | none =>
            match env.initResult with
            | Except.error e =>
                { state := { servers := alistErase c1.servers nm },
                  result := Except.error e,
                  trace := [WireAction.request 1 ("initialize")],
                  killedProcess := env.aliveAtFailure }
            | Except.ok _ =>
                match env.toolsResult with
                | Except.error e =>
                    { state := { servers := alistErase c1.servers nm },
                      result := Except.error e,
                      trace := fullHandshakeTrace,
                      killedProcess := env.aliveAtFailure }
                | Except.ok rawTools =>
                    let tools := normalizeTools rawTools
                    let instF := { inst0 with
                      requestId := 2, tools := tools, connected := true }
                    { state := { servers := alistInsert c.servers nm instF },
                      result := Except.ok tools,
                      trace := fullHandshakeTrace,
                      killedProcess := false }

/-- True when `connect` fails before the instance is stored in the
registry: the name is missing from the config, or the process pipes
could not be created. -/
def connectPreRegFailure (nm : String) (env : ConnectEnv) : Bool :=
  !(configLookup env.config nm).isSome || !env.pipesOk

/-! ## `callTool`

`callTool` looks the instance up; when it is missing, not connected,
or its process has exited, it performs exactly one `connect` attempt
and on failure returns an error-shaped result. It then re-checks the
instance, sends `tools/call` with a 60 s deadline, and normalizes the
response; any rejection (timeout, dead process, write error, remote
JSON-RPC error object) is caught, flips the instance to
`connected = false` with `lastError` set, and is returned as an
`isError = true` result. The function never throws. -/

/-- The raw `result` object of a `tools/call` response. -/
structure RawCallResult where
  content : Option (List McpContentItem)
  isError : Option Bool
deriving DecidableEq

/-- Environment of the `tools/call` request inside one `callTool`:
the outcome of awaiting `sendRequest` (errors cover the liveness
guard, the write callback, the deadline timer and remote error
objects), plus whether the request was registered before failing. -/
structure CallEnv where
  connectEnv : ConnectEnv
  callResult : Except String (Option RawCallResult)
  callRegistered : Bool
deriving DecidableEq

/-- Tool arguments (`Record<string, unknown>`), opaque to the client. -/
def McpArgs : Type := List (String × String)

/-- Reconnect guard of `callTool`:
`!instance || !instance.connected || instance.process.exitCode !== null`. -/
def needsReconnect (inst : Option McpServerInstance) : Bool :=
  match inst with
  | none => true
  | some i => !i.connected || i.exitCode.isSome

/-- Normalization of the `tools/call` response by `callTool`: missing
content becomes the empty list, missing `isError` becomes `false`. -/
def normalizeCallResult (r : Option RawCallResult) : McpToolResult :=
  match r with
  | none => { content := [], isError := false }
  | some rr =>
      { content := (rr.content.getD []).map (fun it =>
          { type := it.type, text := it.text, data := it.data,
            mimeType := it.mimeType }),
        isError := rr.isError.getD false }

/-- Shorthand for a single text content item. -/
def textItem (msg : String) : McpContentItem :=
  { type := "text", text := some msg, data := none, mimeType := none }

/-- The `isError` result returned as `Tool call failed`. -/
def toolCallFailedResult (e : String) : McpToolResult :=
  { content := [textItem ("Tool call failed: " ++ e)], isError := true }

/-- The `isError` result returned as `Failed to reconnect`. -/
def reconnectFailedResult (nm : String) (e : String) : McpToolResult :=
  { content := [textItem ("Failed to reconnect to \"" ++ nm ++ "\": " ++ e)],
    isError := true }

/-- The `isError` result returned when the instance is still missing
or not connected after a successful reconnect. -/
def notAvailableResult (nm : String) : McpToolResult :=
  { content := [textItem ("Server \"" ++ nm ++ "\" not available")],
    isError := true }

/-- Observable outcome of one `callTool` call. -/
structure CallOutcome where
  state : McpClientState
  result : McpToolResult
  connectAttempts : Nat
deriving DecidableEq

/-- The `try` block of `callTool`, from the availability re-check on:
`attempts` counts the `connect` calls already made in this `callTool`. -/
def callToolGo (c : McpClientState) (nm : String) (env : CallEnv)
    (attempts : Nat) : CallOutcome :=
  match alistLookup c.servers nm with
  | none => { state := c, result := notAvailableResult nm, connectAttempts := attempts }
  | some inst =>
      if inst.connected = false then
        { state := c, result := notAvailableResult nm, connectAttempts := attempts }
      else
        match env.callResult with
        | Except.error e =>
            let inst1 := { inst with
              connected := false, lastError := some e,
              requestId := if env.callRegistered then inst.requestId + 1 else inst.requestId }
            { state := { servers := alistInsert c.servers nm inst1 },
              result := toolCallFailedResult e,
              connectAttempts := attempts }
        | Except.ok r =>
            let inst1 := { inst with requestId := inst.requestId + 1 }
            { state := { servers := alistInsert c.servers nm inst1 },
              result := normalizeCallResult r,
              connectAttempts := attempts }

/-- Model of `McpClient.callTool`, translated step for step. The model returns
a `McpToolResult` in every branch (the function never throws); the
`connectAttempts` field counts how many times `connect` was invoked. -/
def callTool (c : McpClientState) (nm : String) (tool : String)
    (args : McpArgs) (env : CallEnv) : CallOutcome :=
  if needsReconnect (alistLookup c.servers nm) then
    match (connect c nm env.connectEnv).result with
    | Except.error e =>
        { state := (connect c nm env.connectEnv).state,
          result := reconnectFailedResult nm e,
          connectAttempts := 1 }
    | Except.ok _ => callToolGo (connect c nm env.connectEnv).state nm env 1
  else callToolGo c nm env 0

/-- The instance `callTool` holds when it reaches its `try` block:
after a possible reconnect, the registry entry for the name. `none`
when the reconnect failed. -/
def instanceForCall (c : McpClientState) (nm : String) (env : CallEnv) :
    Option McpServerInstance :=
  if needsReconnect (alistLookup c.servers nm) then
    match (connect c nm env.connectEnv).result with
    | Except.error _ => none
    | Except.ok _ => alistLookup (connect c nm env.connectEnv).state.servers nm
  else alistLookup c.servers nm

/-! ## `disconnect` and `disconnectAll`

`disconnect` kills the process when still alive and deletes the
registry entry. It does not touch `pendingRequests`: no stored
`reject` is invoked and no deadline timer is cleared, so every timer
of the discarded instance stays scheduled. `disconnectAll` simply
calls `disconnect` for every key of the registry. -/

/-- Observable outcome of a teardown call: the new state, the
settlements delivered to pending requests during the call, and the
deadline timers of discarded instances still scheduled afterwards. -/
structure DisconnectOutcome where
  state : McpClientState
  settlements : List Settlement
  leakedTimers : List Nat
deriving DecidableEq

/-- Model of `McpClient.disconnect`, translated directly: the entry is removed;
nothing is rejected, no timer is cleared. -/
def disconnect (c : McpClientState) (nm : String) : DisconnectOutcome :=
  match alistLookup c.servers nm with
  | none => { state := c, settlements := [], leakedTimers := [] }
  | some inst =>
      { state := { servers := alistErase c.servers nm },
        settlements := [],
        leakedTimers := inst.activeTimers }

/-- Iteration core of `disconnectAll` over the snapshot of keys. -/
def disconnectAllGo (c : McpClientState) : List String → DisconnectOutcome
  | [] => { state := c, settlements := [], leakedTimers := [] }
  | nm :: rest =>
      { state := (disconnectAllGo (disconnect c nm).state rest).state,
        settlements := (disconnect c nm).settlements ++
          (disconnectAllGo (disconnect c nm).state rest).settlements,
        leakedTimers := (disconnect c nm).leakedTimers ++
          (disconnectAllGo (disconnect c nm).state rest).leakedTimers }

/-- Model of `McpClient.disconnectAll`: `disconnect` for every registry key. -/
def disconnectAll (c : McpClientState) : DisconnectOutcome :=
  disconnectAllGo c (c.servers.map (fun p => p.1))

/-- Concatenation of a list of id lists. -/
def concatAll : List (List Nat) → List Nat
  | [] => []
  | h :: t => h ++ concatAll t

/-- Keys of an association list. -/
def alistKeys {α : Type} (l : List (String × α)) : List String :=
  l.map (fun p => p.1)

/-! ## Concrete fixtures used by witnesses and counterexamples -/

/-- A client with no live instances. -/
def emptyClient : McpClientState := { servers := [] }

/-- A stale instance left in the registry by an earlier crash: entry
kept with `connected = false` and a populated `lastError`. -/
def staleInst : McpServerInstance :=
  { mkInstance ("s") none with connected := false, lastError := some ("boom") }

/-- A registry still holding the stale instance under name `s`. -/
def staleState : McpClientState := { servers := [(("s" : String), staleInst)] }

/-- A connect environment in which the config file is absent, so the
config lookup fails before anything is spawned or stored. -/
def noConfigEnv : ConnectEnv :=
  { config := none, pipesOk := true, earlyExit := none, stderrTail := "",
    initResult := Except.ok (), toolsResult := Except.ok none,
    aliveAtFailure := false }

/-- A sample advertised tool. -/
def echoRawTool : RawTool :=
  { name := "echo", description := some ("echo back"), inputSchema := none }

/-- A connect environment in which every step succeeds and `tools/list`
returns the single `echo` tool. -/
def okConnectEnv : ConnectEnv :=
  { config := some { mcpServers := [(("s" : String),
      { command := "npx", args := ["echo-server"], env := [], cwd := none })] },
    pipesOk := true, earlyExit := none, stderrTail := "",
    initResult := Except.ok (), toolsResult := Except.ok (some [echoRawTool]),
    aliveAtFailure := false }

/-- A connected instance with one in-flight request: id 1 pending with
its deadline timer scheduled. -/
def pendingInst : McpServerInstance :=
  { name := "p", tools := [], requestId := 1, pendingRequests := [1],
    activeTimers := [1], connected := true, lastError := none,
    exitCode := none }

/-- A registry holding `pendingInst` under name `p`. -/
def pendingState : McpClientState := { servers := [(("p" : String), pendingInst)] }

/-- A healthy connected instance under name `c`. -/
def connectedInst : McpServerInstance :=
  { name := "c", tools := [], requestId := 2, pendingRequests := [],
    activeTimers := [], connected := true, lastError := none,
    exitCode := none }

/-- A registry holding `connectedInst` under name `c`. -/
def connectedState : McpClientState := { servers := [(("c" : String), connectedInst)] }

/-- A call environment whose `tools/call` response result is absent
(`result` missing or shapeless). -/
def shapelessCallEnv : CallEnv :=
  { connectEnv := noConfigEnv, callResult := Except.ok none,
    callRegistered := true }

/-- A call environment whose `tools/call` request times out. -/
def timeoutCallEnv : CallEnv :=
  { connectEnv := noConfigEnv,
    callResult := Except.error ("Request tools/call timed out after 60000ms"),
    callRegistered := true }

/-- A parser that fails on every line. -/
def alwaysFailJson : String → Option JsonRpcResponseShape := fun _ => none

/-! ## Helper lemmas: association lists -/

theorem alistLookup_insert {α : Type} (l : List (String × α)) (nm : String) (v : α) :
    alistLookup (alistInsert l nm v) nm = some v := by
  simp [alistInsert, alistLookup]

theorem alistLookup_erase_self {α : Type} (l : List (String × α)) (nm : String) :
    alistLookup (alistErase l nm) nm = none := by
  induction l with
  | nil => rfl
  | cons p t ih =>
      by_cases h : p.1 = nm
      · simpa [alistErase, List.filter_cons, h] using ih
      · simpa [alistErase, List.filter_cons, h, alistLookup] using ih

theorem alistErase_of_not_mem_keys {α : Type} (l : List (String × α)) (nm : String)
    (h : nm ∉ alistKeys l) : alistErase l nm = l := by
  induction l with
  | nil => rfl
  | cons p t ih =>
      simp only [alistKeys, List.map_cons, List.mem_cons] at h
      push_neg at h
      have h1 : p.1 ≠ nm := fun he => h.1 he.symm
      have h2 := ih (by simpa [alistKeys] using h.2)
      simp [alistErase, List.filter_cons, h1] at *
      simpa [alistErase] using h2

/-! ## Helper lemmas: consuming and registering pending entries -/

theorem mem_filter_bne {l : List Nat} {i id : Nat} :
    i ∈ l.filter (fun j => j != id) ↔ i ∈ l ∧ i ≠ id := by
  simp [List.mem_filter, bne_iff_ne]

theorem not_mem_filter_bne_self {l : List Nat} {id : Nat} :
    id ∉ l.filter (fun j => j != id) := by
  intro h
  exact (mem_filter_bne.mp h).2 rfl

theorem consumeId_inv {s : McpServerInstance} {id : Nat} (h : InstInv s) :
    InstInv (consumeId s id) := by
  obtain ⟨hb, hn, ht⟩ := h
  refine ⟨?_, ?_, ?_⟩
  · intro i hi
    have hm := mem_filter_bne.mp (by simpa [consumeId] using hi)
    simpa [consumeId] using hb i hm.1
  · simpa [consumeId] using hn.filter _
  · intro i hi
    have hm := mem_filter_bne.mp (by simpa [consumeId] using hi)
    simp only [consumeId]
    exact mem_filter_bne.mpr ⟨ht i hm.1, hm.2⟩

theorem registerRequest_inv {s : McpServerInstance} (h : InstInv s) :
    InstInv (registerRequest s).1 := by
  obtain ⟨hb, hn, ht⟩ := h
  refine ⟨?_, ?_, ?_⟩
  · intro i hi
    simp only [registerRequest, List.mem_cons] at hi ⊢
    rcases hi with hi | hi
    · omega
    · have := hb i hi; omega
  · simp only [registerRequest]
    refine List.nodup_cons.mpr ⟨?_, hn⟩
    intro hc
    have := hb _ hc
    omega
  · intro i hi
    simp only [registerRequest, List.mem_cons] at hi ⊢
    rcases hi with hi | hi
    · exact Or.inl hi
    · exact Or.inr (ht i hi)

/-! ## Helper lemmas: runs of correlation events -/

theorem stepEvent_requestId_le (s : McpServerInstance) (e : McpEvent) :
    s.requestId ≤ (stepEvent s e).1.requestId := by
  cases e with
  | send =>
      simp only [stepEvent, registerRequest]
      exact Nat.le_succ _
  | response id err =>
      by_cases h : id ∈ s.pendingRequests <;>
        simp [stepEvent, dispatchResponse, consumeId, h]
  | timerFire id method ms =>
      by_cases h : id ∈ s.activeTimers <;>
        simp [stepEvent, fireTimeout, consumeId, h]
  | writeErr id msg =>
      by_cases h : id ∈ s.pendingRequests <;>
        simp [stepEvent, stdinWriteError, consumeId, h]

theorem runEvents_requestId_le (evs : List McpEvent) (s : McpServerInstance) :
    s.requestId ≤ (runEvents s evs).1.requestId := by
  induction evs generalizing s with
  | nil => exact le_refl _
  | cons e es ih =>
      exact le_trans (stepEvent_requestId_le s e) (ih (stepEvent s e).1)

theorem stepEvent_inv {s : McpServerInstance} {e : McpEvent} (h : InstInv s) :
    InstInv (stepEvent s e).1 := by
  cases e with
  | send => exact registerRequest_inv h
  | response id err =>
      by_cases hm : id ∈ s.pendingRequests
      · simpa [stepEvent, dispatchResponse, hm] using consumeId_inv h
      · simpa [stepEvent, dispatchResponse, hm] using h
  | timerFire id method ms =>
      by_cases hm : id ∈ s.activeTimers
      · simpa [stepEvent, fireTimeout, hm] using consumeId_inv h
      · simpa [stepEvent, fireTimeout, hm] using h
  | writeErr id msg =>
      by_cases hm : id ∈ s.pendingRequests
      · simpa [stepEvent, stdinWriteError, hm] using consumeId_inv h
      · simpa [stepEvent, stdinWriteError, hm] using h

theorem runEvents_inv {evs : List McpEvent} {s : McpServerInstance} (h : InstInv s) :
    InstInv (runEvents s evs).1 := by
  induction evs generalizing s with
  | nil => exact h
  | cons e es ih => exact ih (stepEvent_inv h)

theorem stepEvent_requestId_nonsend (s : McpServerInstance) (e : McpEvent)
    (h : (stepEvent s e).2.1 = []) : (stepEvent s e).1.requestId = s.requestId := by
  cases e with
  | send => simp [stepEvent] at h
  | response id err =>
      by_cases hm : id ∈ s.pendingRequests <;>
        simp [stepEvent, dispatchResponse, consumeId, hm]
  | timerFire id method ms =>
      by_cases hm : id ∈ s.activeTimers <;>
        simp [stepEvent, fireTimeout, consumeId, hm]
  | writeErr id msg =>
      by_cases hm : id ∈ s.pendingRequests <;>
        simp [stepEvent, stdinWriteError, consumeId, hm]

theorem runEvents_ids_window (evs : List McpEvent) (s : McpServerInstance) :
    ∀ i ∈ (runEvents s evs).2.1,
      s.requestId < i ∧ i ≤ (runEvents s evs).1.requestId := by
  induction evs generalizing s with
  | nil => simp [runEvents]
  | cons e es ih =>
      intro i hi
      simp only [runEvents, List.mem_append] at hi
      rcases hi with hi | hi
      · cases e with
        | send =>
            have hid : i = s.requestId + 1 := by simpa [stepEvent] using hi
            have hreq : (stepEvent s McpEvent.send).1.requestId = s.requestId + 1 := rfl
            have hle := runEvents_requestId_le es (stepEvent s McpEvent.send).1
            simp only [runEvents]
            constructor
            · omega
            · omega
        | response id err =>
            exact absurd hi (by
              by_cases hm : id ∈ s.pendingRequests <;>
                simp [stepEvent, dispatchResponse, hm])
        | timerFire id method ms =>
            exact absurd hi (by
              by_cases hm : id ∈ s.activeTimers <;>
                simp [stepEvent, fireTimeout, hm])
        | writeErr id msg =>
            exact absurd hi (by
              by_cases hm : id ∈ s.pendingRequests <;>
                simp [stepEvent, stdinWriteError, hm])
      · have h2 := ih (stepEvent s e).1 i hi
        have h1 := stepEvent_requestId_le s e
        simp only [runEvents]
        exact ⟨lt_of_le_of_lt h1 h2.1, h2.2⟩

theorem runEvents_ids_pairwise (evs : List McpEvent) (s : McpServerInstance) :
    ((runEvents s evs).2.1).Pairwise (· < ·) := by
  induction evs generalizing s with
  | nil => simp [runEvents]
  | cons e es ih =>
      cases e with
      | send =>
          have hids : (runEvents s (McpEvent.send :: es)).2.1 =
              (s.requestId + 1) :: (runEvents (stepEvent s McpEvent.send).1 es).2.1 := by
            simp [runEvents, stepEvent, registerRequest]
          rw [hids]
          refine List.pairwise_cons.mpr ⟨?_, ih (stepEvent s McpEvent.send).1⟩
          intro b hb
          have hw := runEvents_ids_window es (stepEvent s McpEvent.send).1 b hb
          have hreq : (stepEvent s McpEvent.send).1.requestId = s.requestId + 1 := rfl
          omega
      | response id err =>
          have hids : (runEvents s (McpEvent.response id err :: es)).2.1 =
              (runEvents (stepEvent s (McpEvent.response id err)).1 es).2.1 := by
            by_cases hm : id ∈ s.pendingRequests <;>
              simp [runEvents, stepEvent, dispatchResponse, hm]
          rw [hids]
          exact ih _
      | timerFire id method ms =>
          have hids : (runEvents s (McpEvent.timerFire id method ms :: es)).2.1 =
              (runEvents (stepEvent s (McpEvent.timerFire id method ms)).1 es).2.1 := by
            by_cases hm : id ∈ s.activeTimers <;>
              simp [runEvents, stepEvent, fireTimeout, hm]
          rw [hids]
          exact ih _
      | writeErr id msg =>
          have hids : (runEvents s (McpEvent.writeErr id msg :: es)).2.1 =
              (runEvents (stepEvent s (McpEvent.writeErr id msg)).1 es).2.1 := by
            by_cases hm : id ∈ s.pendingRequests <;>
              simp [runEvents, stepEvent, stdinWriteError, hm]
          rw [hids]
          exact ih _

theorem stepEvent_settle_cases (s : McpServerInstance) (e : McpEvent)
    (hinv : InstInv s) :
    ((stepEvent s e).2.2 = [] ∧
      ((stepEvent s e).1 = s ∨ (stepEvent s e).1 = (registerRequest s).1)) ∨
    (∃ id st, (stepEvent s e).2.2 = [st] ∧ Settlement.sid st = id ∧
      id ∈ s.pendingRequests ∧ (stepEvent s e).1 = consumeId s id) := by
  cases e with
  | send => exact Or.inl ⟨rfl, Or.inr rfl⟩
  | response id err =>
      by_cases hm : id ∈ s.pendingRequests
      · refine Or.inr ⟨id,
          (match err with
           | some m => Settlement.rejected id m
           | none => Settlement.resolved id), ?_, ?_, hm, ?_⟩
        · cases err <;> simp [stepEvent, dispatchResponse, hm]
        · cases err <;> rfl
        · simp [stepEvent, dispatchResponse, hm]
      · refine Or.inl ⟨by simp [stepEvent, dispatchResponse, hm],
          Or.inl (by simp [stepEvent, dispatchResponse, hm])⟩
  | timerFire id method ms =>
      by_cases hm : id ∈ s.activeTimers
      · refine Or.inr ⟨id,
          Settlement.rejected id
            ("Request " ++ method ++ " timed out after " ++ toString ms ++ "ms"),
          ?_, rfl, hinv.2.2 id hm, ?_⟩
        · simp [stepEvent, fireTimeout, hm]
        · simp [stepEvent, fireTimeout, hm]
      · refine Or.inl ⟨by simp [stepEvent, fireTimeout, hm],
          Or.inl (by simp [stepEvent, fireTimeout, hm])⟩
  | writeErr id msg =>
      by_cases hm : id ∈ s.pendingRequests
      · refine Or.inr ⟨id,
          Settlement.rejected id ("Failed to write to stdin: " ++ msg),
          ?_, rfl, hm, ?_⟩
        · simp [stepEvent, stdinWriteError, hm]
        · simp [stepEvent, stdinWriteError, hm]
      · refine Or.inl ⟨by simp [stepEvent, stdinWriteError, hm],
          Or.inl (by simp [stepEvent, stdinWriteError, hm])⟩

theorem runEvents_settled (evs : List McpEvent) (s : McpServerInstance) (done : List Nat)
    (hinv : InstInv s)
    (hdone : ∀ i ∈ done, i ∉ s.pendingRequests ∧ i ≤ s.requestId)
    (hnd : done.Nodup) :
    (∀ i ∈ done ++ ((runEvents s evs).2.2.map Settlement.sid),
        i ∉ (runEvents s evs).1.pendingRequests ∧
        i ≤ (runEvents s evs).1.requestId) ∧
    (done ++ ((runEvents s evs).2.2.map Settlement.sid)).Nodup := by
  induction evs generalizing s done with
  | nil =>
      refine ⟨?_, by simpa [runEvents] using hnd⟩
      intro i hi
      simp only [runEvents, List.map_nil, List.append_nil] at hi ⊢
      exact hdone i hi
  | cons e es ih =>
      rcases stepEvent_settle_cases s e hinv with ⟨hsts, hstate⟩ | ⟨id, st, hsts, hsid, hmem, hstate⟩
      · rcases hstate with hstate | hstate
        · have h := ih s done hinv hdone hnd
          simp only [runEvents, hsts, hstate, List.nil_append]
          exact h
        · have hinv1 := registerRequest_inv hinv
          have hdone1 : ∀ i ∈ done,
              i ∉ (registerRequest s).1.pendingRequests ∧
              i ≤ (registerRequest s).1.requestId := by
            intro i hi
            obtain ⟨h1, h2⟩ := hdone i hi
            constructor
            · simp only [registerRequest, List.mem_cons]
              push_neg
              exact ⟨by omega, h1⟩
            · simp only [registerRequest]
              omega
          have h := ih (registerRequest s).1 done hinv1 hdone1 hnd
          simp only [runEvents, hsts, hstate, List.nil_append]
          exact h
      · have hinv1 : InstInv (consumeId s id) := consumeId_inv hinv
        have hid_le : id ≤ s.requestId := hinv.1 id hmem
        have hdone1 : ∀ i ∈ done ++ [id],
            i ∉ (consumeId s id).pendingRequests ∧ i ≤ (consumeId s id).requestId := by
          intro i hi
          simp only [List.mem_append, List.mem_singleton] at hi
          rcases hi with hi | rfl
          · obtain ⟨h1, h2⟩ := hdone i hi
            refine ⟨?_, by simpa [consumeId] using h2⟩
            intro hc
            exact h1 (mem_filter_bne.mp (by simpa [consumeId] using hc)).1
          · refine ⟨?_, by simpa [consumeId] using hid_le⟩
            intro hc
            simp [consumeId, List.mem_filter] at hc
        have hid_done : id ∉ done := fun hc => (hdone id hc).1 hmem
        have hnd1 : (done ++ [id]).Nodup := by
          simp [List.nodup_append, hnd, hid_done]
        have h := ih (consumeId s id) (done ++ [id]) hinv1 hdone1 hnd1
        have hshape : done ++ id ::
            ((runEvents (consumeId s id) es).2.2.map Settlement.sid) =
            (done ++ [id]) ++ ((runEvents (consumeId s id) es).2.2.map Settlement.sid) := by
          simp
        simp only [runEvents, hsts, hstate, List.cons_append, List.nil_append,
          List.map_cons, hsid, hshape]
        exact h

/-! ## Helper lemmas: teardown -/

theorem disconnectAllGo_full (l : List (String × McpServerInstance))
    (h : (alistKeys l).Nodup) :
    disconnectAllGo { servers := l } (alistKeys l) =
      { state := { servers := [] }, settlements := [],
        leakedTimers := concatAll (l.map (fun p => p.2.activeTimers)) } := by
  induction l with
  | nil => rfl
  | cons p t ih =>
      obtain ⟨k, v⟩ := p
      have h2 : (k :: alistKeys t).Nodup := h
      have hk : k ∉ alistKeys t := (List.nodup_cons.mp h2).1
      have ht : (alistKeys t).Nodup := (List.nodup_cons.mp h2).2
      have hlook : alistLookup ((k, v) :: t) k = some v := by
        simp [alistLookup]
      have herase : alistErase ((k, v) :: t) k = t := by
        have h2 := alistErase_of_not_mem_keys t k hk
        simpa [alistErase, List.filter_cons] using h2
      have hkeys : alistKeys ((k, v) :: t) = k :: alistKeys t := by
        simp [alistKeys]
      rw [hkeys]
      simp only [disconnectAllGo, disconnect, hlook, herase]
      rw [ih ht]
      simp [concatAll]

/-! ## Claim C2 -/

/-- C2 counterexample: on a registry holding one live instance with one
in-flight request (id 1 pending, its deadline timer scheduled),
`disconnectAll` returns having delivered no settlement at all, and the
deadline timer of id 1 is still scheduled afterwards. This refutes the
claim that `disconnectAll` settles (rejects) every pending request of
every live instance before returning and that no deadline timer remains
active afterwards: `disconnect` deletes the registry entry and kills the
process but never touches `pendingRequests` and never calls
`clearTimeout`. -/
theorem disconnectAll_settles_nothing_cex :
    pendingInst.pendingRequests = [1] ∧
    alistLookup pendingState.servers ("p") = some pendingInst ∧
    (disconnectAll pendingState).settlements = [] ∧
    (disconnectAll pendingState).leakedTimers = [1] := by
  refine ⟨rfl, ?_, ?_, ?_⟩ <;> rfl

/-- C2 (amended): for every registry, `disconnectAll()` removes every
entry and (by `disconnect`) kills each live process, but it settles no
pending request and cancels no deadline timer: the list of settlements
delivered during the call is empty, and the deadline timers left
scheduled afterwards are exactly all the active timers of the discarded
instances. Pending requests are only settled later, when their deadline
timers eventually fire. -/
theorem disconnectAll_teardown_behavior (c : McpClientState)
    (h : (alistKeys c.servers).Nodup) :
    (disconnectAll c).state.servers = [] ∧
    (disconnectAll c).settlements = [] ∧
    (disconnectAll c).leakedTimers =
      concatAll (c.servers.map (fun p => p.2.activeTimers)) := by
  have hfull := disconnectAllGo_full c.servers h
  have hc : disconnectAll c =
      disconnectAllGo { servers := c.servers } (alistKeys c.servers) := rfl
  rw [hc, hfull]
  exact ⟨rfl, rfl, rfl⟩

/-- C2 witness: the amended theorem applied to the concrete registry
holding `pendingInst`. -/
theorem disconnectAll_teardown_behavior_witness :
    (disconnectAll pendingState).state.servers = [] ∧
    (disconnectAll pendingState).settlements = [] ∧
    (disconnectAll pendingState).leakedTimers =
      concatAll (pendingState.servers.map (fun p => p.2.activeTimers)) :=
  disconnectAll_teardown_behavior pendingState (by decide)

/-! ## Claim C1 -/

/-- C1 counterexample: the registry still holds the stale instance
`staleInst` under name `s` (kept for status reporting after a crash);
`connect` is called while the config file is absent, fails at the config
lookup — before anything is spawned or stored — and returns with the
stale entry still present in the registry. This refutes the claim that
after every failed `connect()` the servers map contains no instance for
that name. -/
theorem connect_stale_entry_survives_cex :
    exceptOk (connect staleState ("s") noConfigEnv).result = false ∧
    alistLookup (connect staleState ("s") noConfigEnv).state.servers ("s") =
      some staleInst := by
  exact ⟨rfl, rfl⟩

/-- C1 (amended): `connect()` either completes the full handshake and
returns the tool list with the registered instance connected, or it
fails; when the failure occurs after the instance was registered (early
process exit, `initialize` failure, `tools/list` failure) the process is
killed exactly when it is still alive and the registry is left with no
entry for that name; when the failure occurs before registration
(name missing from the config, pipe creation failure) the registry is
left exactly as it was — so a pre-existing entry for that name
survives, and no process is killed. -/
theorem connect_failure_registry_dichotomy (c : McpClientState) (nm : String)
    (env : ConnectEnv) :
    (exceptOk (connect c nm env).result = true →
        ∃ inst, alistLookup (connect c nm env).state.servers nm = some inst ∧
          inst.connected = true ∧
          (connect c nm env).result = Except.ok inst.tools) ∧
    (exceptOk (connect c nm env).result = false →
        (connectPreRegFailure nm env = true →
            (connect c nm env).state = c ∧
            (connect c nm env).killedProcess = false) ∧
        (connectPreRegFailure nm env = false →
            alistLookup (connect c nm env).state.servers nm = none ∧
            (connect c nm env).killedProcess =
              (env.earlyExit.isNone && env.aliveAtFailure))) := by
  rcases hcfg : configLookup env.config nm with _ | cfg
  · constructor
    · intro hok
      simp [connect, hcfg, exceptOk] at hok
    · intro _
      constructor
      · intro _
        exact ⟨by simp [connect, hcfg], by simp [connect, hcfg]⟩
      · intro hpre
        simp [connectPreRegFailure, hcfg] at hpre
  · cases hp : env.pipesOk
    · constructor
      · intro hok
        simp [connect, hcfg, hp, exceptOk] at hok
      · intro _
        constructor
        · intro _
          exact ⟨by simp [connect, hcfg, hp], by simp [connect, hcfg, hp]⟩
        · intro hpre
          simp [connectPreRegFailure, hcfg, hp] at hpre
    · rcases hee : env.earlyExit with _ | code
      · rcases hinit : env.initResult with e | u
        · constructor
          · intro hok
            simp [connect, hcfg, hp, hee, hinit, exceptOk] at hok
          · intro _
            constructor
            · intro hpre
              simp [connectPreRegFailure, hcfg, hp] at hpre
            · intro _
              constructor
              · simp only [connect, hcfg, hp, hee, hinit]
                exact alistLookup_erase_self _ nm
              · simp [connect, hcfg, hp, hee, hinit]
        · rcases htools : env.toolsResult with e | raw
          · constructor
            · intro hok
              simp [connect, hcfg, hp, hee, hinit, htools, exceptOk] at hok
            · intro _
              constructor
              · intro hpre
                simp [connectPreRegFailure, hcfg, hp] at hpre
              · intro _
                constructor
                · simp only [connect, hcfg, hp, hee, hinit, htools]
                  exact alistLookup_erase_self _ nm
                · simp [connect, hcfg, hp, hee, hinit, htools]
          · constructor
            · intro _
              refine ⟨{ mkInstance nm none with
                  requestId := 2, tools := normalizeTools raw, connected := true },
                ?_, rfl, ?_⟩
              · simp only [connect, hcfg, hp, hee, hinit, htools]
                exact alistLookup_insert _ _ _
              · simp [connect, hcfg, hp, hee, hinit, htools]
            · intro hbad
              simp [connect, hcfg, hp, hee, hinit, htools, exceptOk] at hbad
      · constructor
        · intro hok
          simp [connect, hcfg, hp, hee, exceptOk] at hok
        · intro _
          constructor
          · intro hpre
            simp [connectPreRegFailure, hcfg, hp] at hpre
          · intro _
            constructor
            · simp only [connect, hcfg, hp, hee]
              exact alistLookup_erase_self _ nm
            · simp [connect, hcfg, hp, hee]

/-- C1 witness: the amended theorem applied to a concrete failing
connect. With the stale registry and an absent config file, the failure
is pre-registration, so the state is returned unchanged. -/
theorem connect_failure_registry_dichotomy_witness :
    (connect staleState ("s") noConfigEnv).state = staleState ∧
    (connect staleState ("s") noConfigEnv).killedProcess = false :=
  ((connect_failure_registry_dichotomy staleState ("s") noConfigEnv).2
    (by rfl)).1 (by rfl)

/-! ## Claim C6 -/

/-- C6: `connect` drives the handshake in strict order. The wire trace
of every `connect` call is a prefix of `initialize` (request, id 1,
response awaited), then the `notifications/initialized` notification
(a `WireAction.notif`, which carries no id and awaits no response),
then `tools/list` (request, id 2, response awaited); the only traces
that occur are the empty trace, the trace up to `initialize`, and the
full trace; the call succeeds exactly when every step (config lookup,
pipes, no early exit, `initialize`, `tools/list`) succeeds; and on
success — and only then — the registered instance has `connected =
true` with the normalized `tools/list` result cached as its tools. -/
theorem connect_handshake_strict_order (c : McpClientState) (nm : String)
    (env : ConnectEnv) :
    (∃ rest, (connect c nm env).trace ++ rest = fullHandshakeTrace) ∧
    ((connect c nm env).trace = [] ∨
      (connect c nm env).trace = [WireAction.request 1 ("initialize")] ∨
      (connect c nm env).trace = fullHandshakeTrace) ∧
    (exceptOk (connect c nm env).result = true ↔
       ((configLookup env.config nm).isSome = true ∧ env.pipesOk = true ∧
        env.earlyExit = none ∧ exceptOk env.initResult = true ∧
        exceptOk env.toolsResult = true)) ∧
    (exceptOk (connect c nm env).result = true →
       (connect c nm env).trace = fullHandshakeTrace ∧
       ∃ inst, alistLookup (connect c nm env).state.servers nm = some inst ∧
         inst.connected = true ∧
         (connect c nm env).result = Except.ok inst.tools) := by
  rcases hcfg : configLookup env.config nm with _ | cfg
  · refine ⟨⟨fullHandshakeTrace, by simp [connect, hcfg]⟩,
      Or.inl (by simp [connect, hcfg]), ?_, ?_⟩
    · constructor
      · intro hok
        simp [connect, hcfg, exceptOk] at hok
      · rintro ⟨hsome, _⟩
        simp at hsome
    · intro hok
      simp [connect, hcfg, exceptOk] at hok
  · cases hp : env.pipesOk
    · refine ⟨⟨fullHandshakeTrace, by simp [connect, hcfg, hp]⟩,
        Or.inl (by simp [connect, hcfg, hp]), ?_, ?_⟩
      · constructor
        · intro hok
          simp [connect, hcfg, hp, exceptOk] at hok
        · rintro ⟨_, hptrue, _⟩
          exact absurd hptrue (by simp)
      · intro hok
        simp [connect, hcfg, hp, exceptOk] at hok
    · rcases hee : env.earlyExit with _ | code
      · rcases hinit : env.initResult with e | u
        · refine ⟨⟨[WireAction.notif ("notifications/initialized"),
              WireAction.request 2 ("tools/list")],
              by simp [connect, hcfg, hp, hee, hinit, fullHandshakeTrace]⟩,
            Or.inr (Or.inl (by simp [connect, hcfg, hp, hee, hinit])), ?_, ?_⟩
          · constructor
            · intro hok
              simp [connect, hcfg, hp, hee, hinit, exceptOk] at hok
            · rintro ⟨_, _, _, hi, _⟩
              simp [exceptOk] at hi
          · intro hok
            simp [connect, hcfg, hp, hee, hinit, exceptOk] at hok
        · rcases htools : env.toolsResult with e | raw
          · refine ⟨⟨[], by simp [connect, hcfg, hp, hee, hinit, htools]⟩,
              Or.inr (Or.inr (by simp [connect, hcfg, hp, hee, hinit, htools])),
              ?_, ?_⟩
            · constructor
              · intro hok
                simp [connect, hcfg, hp, hee, hinit, htools, exceptOk] at hok
              · rintro ⟨_, _, _, _, ht⟩
                simp [exceptOk] at ht
            · intro hok
              simp [connect, hcfg, hp, hee, hinit, htools, exceptOk] at hok
          · refine ⟨⟨[], by simp [connect, hcfg, hp, hee, hinit, htools]⟩,
              Or.inr (Or.inr (by simp [connect, hcfg, hp, hee, hinit, htools])),
              ?_, ?_⟩
            · constructor
              · intro _
                refine ⟨by simp [hcfg], by simp [hp], rfl, ?_, ?_⟩
                · simp [hinit, exceptOk]
                · simp [htools, exceptOk]
              · intro _
                simp [connect, hcfg, hp, hee, hinit, htools, exceptOk]
            · intro _
              refine ⟨by simp [connect, hcfg, hp, hee, hinit, htools], ?_⟩
              refine ⟨{ mkInstance nm none with
                  requestId := 2, tools := normalizeTools raw, connected := true },
                ?_, rfl, ?_⟩
              · simp only [connect, hcfg, hp, hee, hinit, htools]
                exact alistLookup_insert _ _ _
              · simp [connect, hcfg, hp, hee, hinit, htools]
      · refine ⟨⟨fullHandshakeTrace, by simp [connect, hcfg, hp, hee]⟩,
          Or.inl (by simp [connect, hcfg, hp, hee]), ?_, ?_⟩
        · constructor
          · intro hok
            simp [connect, hcfg, hp, hee, exceptOk] at hok
          · rintro ⟨_, _, hen, _⟩
            simp at hen
        · intro hok
          simp [connect, hcfg, hp, hee, exceptOk] at hok

/-- C6 witness: the handshake-order theorem applied to a fully
successful concrete connect: the emitted trace is the full three-step
sequence. -/
theorem connect_handshake_strict_order_witness :
    (connect emptyClient ("s") okConnectEnv).trace = fullHandshakeTrace :=
  (((connect_handshake_strict_order emptyClient ("s") okConnectEnv).2.2.2)
    (by rfl)).1

/-! ## Claims C4, C3, C10 -/

theorem callToolGo_attempts (c : McpClientState) (nm : String) (env : CallEnv)
    (a : Nat) : (callToolGo c nm env a).connectAttempts = a := by
  rcases h : alistLookup c.servers nm with _ | inst
  · simp [callToolGo, h]
  · by_cases hc : inst.connected = false
    · simp [callToolGo, h, hc]
    · rcases hr : env.callResult with e | r <;> simp [callToolGo, h, hc, hr]

/-- C4: when the instance for the name is missing, not connected, or
its process has exited (`needsReconnect`), `callTool` performs exactly
one `connect` attempt before proceeding, and when that single attempt
fails it returns an `isError = true` result (with no further connect
attempts — the count stays 1); when the instance is present, connected
and alive, no connect attempt is made at all. -/
theorem callTool_exactly_one_reconnect (c : McpClientState) (nm tool : String)
    (args : McpArgs) (env : CallEnv) :
    (needsReconnect (alistLookup c.servers nm) = true →
        (callTool c nm tool args env).connectAttempts = 1 ∧
        (exceptOk (connect c nm env.connectEnv).result = false →
            (callTool c nm tool args env).result.isError = true)) ∧
    (needsReconnect (alistLookup c.servers nm) = false →
        (callTool c nm tool args env).connectAttempts = 0) := by
  constructor
  · intro hrec
    constructor
    · rcases hres : (connect c nm env.connectEnv).result with e | tools
      · simp [callTool, hrec, hres]
      · simp only [callTool, hrec, hres, if_true]
        exact callToolGo_attempts _ nm env 1
    · intro hfail
      rcases hres : (connect c nm env.connectEnv).result with e | tools
      · simp [callTool, hrec, hres, reconnectFailedResult]
      · rw [hres] at hfail
        simp [exceptOk] at hfail
  · intro hrec
    simp only [callTool, hrec]
    simp only [Bool.false_eq_true, if_false]
    exact callToolGo_attempts c nm env 0

/-- C4 witness: the theorem applied to a concrete never-connected
server whose reconnect fails (absent config): exactly one connect
attempt is made and the result carries `isError = true`. -/
theorem callTool_exactly_one_reconnect_witness :
    (callTool emptyClient ("w") ("t") [] shapelessCallEnv).connectAttempts = 1 ∧
    (callTool emptyClient ("w") ("t") [] shapelessCallEnv).result.isError = true :=
  ⟨((callTool_exactly_one_reconnect emptyClient ("w") ("t") [] shapelessCallEnv).1
      (by rfl)).1,
   ((callTool_exactly_one_reconnect emptyClient ("w") ("t") [] shapelessCallEnv).1
      (by rfl)).2 (by rfl)⟩

/-- C3: `callTool` never throws — every branch of the model returns a
`McpToolResult` value. When the (single) reconnect fails or the
instance is unavailable, the returned result has `isError = true` with
a textual explanation in `content`; when the instance is held and the
`tools/call` await fails with message `e` (deadline timeout, exited
process, stdin write error, or a remote JSON-RPC error object — all of
which reach `callTool` as a rejection), the result is the
`Tool call failed` error result and the registered instance is flipped
to `connected = false` with `lastError = some e`; when the await
succeeds the normalized response is returned. -/
theorem callTool_uniform_failure_shape (c : McpClientState) (nm tool : String)
    (args : McpArgs) (env : CallEnv) :
    (instanceForCall c nm env = none →
        (callTool c nm tool args env).result.isError = true ∧
        (callTool c nm tool args env).result.content ≠ []) ∧
    (∀ inst e, instanceForCall c nm env = some inst → inst.connected = true →
        env.callResult = Except.error e →
        (callTool c nm tool args env).result = toolCallFailedResult e ∧
        (callTool c nm tool args env).result.isError = true ∧
        ∃ inst1,
          alistLookup (callTool c nm tool args env).state.servers nm = some inst1 ∧
          inst1.connected = false ∧ inst1.lastError = some e) ∧
    (∀ inst r, instanceForCall c nm env = some inst → inst.connected = true →
        env.callResult = Except.ok r →
        (callTool c nm tool args env).result = normalizeCallResult r) := by
  by_cases hrec : needsReconnect (alistLookup c.servers nm) = true
  · rcases hres : (connect c nm env.connectEnv).result with e0 | tools
    · refine ⟨?_, ?_, ?_⟩
      · intro _
        simp [callTool, hrec, hres, reconnectFailedResult, textItem]
      · intro inst e hsome _ _
        simp [instanceForCall, hrec, hres] at hsome
      · intro inst r hsome _ _
        simp [instanceForCall, hrec, hres] at hsome
    · have hifc : instanceForCall c nm env =
          alistLookup (connect c nm env.connectEnv).state.servers nm := by
        simp [instanceForCall, hrec, hres]
      rcases hlook : alistLookup (connect c nm env.connectEnv).state.servers nm
        with _ | inst0
      · refine ⟨?_, ?_, ?_⟩
        · intro _
          simp [callTool, hrec, hres, callToolGo, hlook, notAvailableResult, textItem]
        · intro inst e hsome
          rw [hifc, hlook] at hsome
          simp at hsome
        · intro inst r hsome
          rw [hifc, hlook] at hsome
          simp at hsome
      · refine ⟨?_, ?_, ?_⟩
        · intro hnone
          rw [hifc, hlook] at hnone
          simp at hnone
        · intro inst e hsome hconn herr
          rw [hifc, hlook] at hsome
          have hinst : inst0 = inst := by simpa using hsome
          subst hinst
          have hnc : ¬ inst0.connected = false := by simp [hconn]
          refine ⟨?_, ?_, ?_⟩
          · simp [callTool, hrec, hres, callToolGo, hlook, hnc, herr]
          · simp [callTool, hrec, hres, callToolGo, hlook, hnc, herr,
              toolCallFailedResult]
          · refine ⟨{ inst0 with
                connected := false
                lastError := some e
                requestId := if env.callRegistered then inst0.requestId + 1
                  else inst0.requestId }, ?_, rfl, rfl⟩
            simp only [callTool, hrec, hres]
            simp only [callToolGo, hlook, hnc, herr, if_true, if_false]
            exact alistLookup_insert _ _ _
        · intro inst r hsome hconn hok
          rw [hifc, hlook] at hsome
          have hinst : inst0 = inst := by simpa using hsome
          subst hinst
          have hnc : ¬ inst0.connected = false := by simp [hconn]
          simp [callTool, hrec, hres, callToolGo, hlook, hnc, hok]
  · have hrecf : needsReconnect (alistLookup c.servers nm) = false := by
      simpa using hrec
    have hifc : instanceForCall c nm env = alistLookup c.servers nm := by
      simp [instanceForCall, hrecf]
    rcases hlook : alistLookup c.servers nm with _ | inst0
    · rw [hlook] at hrecf
      simp [needsReconnect] at hrecf
    · rw [hlook] at hrecf
      refine ⟨?_, ?_, ?_⟩
      · intro hnone
        rw [hifc, hlook] at hnone
        simp at hnone
      · intro inst e hsome hconn herr
        rw [hifc, hlook] at hsome
        have hinst : inst0 = inst := by simpa using hsome
        subst hinst
        have hnc : ¬ inst0.connected = false := by simp [hconn]
        refine ⟨?_, ?_, ?_⟩
        · simp [callTool, hrecf, callToolGo, hlook, hnc, herr]
        · simp [callTool, hrecf, callToolGo, hlook, hnc, herr, toolCallFailedResult]
        · refine ⟨{ inst0 with
              connected := false
              lastError := some e
              requestId := if env.callRegistered then inst0.requestId + 1
                else inst0.requestId }, ?_, rfl, rfl⟩
          simp only [callTool, hlook, hrecf, Bool.false_eq_true, if_false]
          simp only [callToolGo, hlook, hnc, herr]
          exact alistLookup_insert _ _ _
      · intro inst r hsome hconn hok
        rw [hifc, hlook] at hsome
        have hinst : inst0 = inst := by simpa using hsome
        subst hinst
        have hnc : ¬ inst0.connected = false := by simp [hconn]
        simp [callTool, hrecf, callToolGo, hlook, hnc, hok]

/-- C3 witness: the failure-shape theorem applied to a concrete
timed-out `tools/call` on a connected instance: the result is the
`Tool call failed` error result. -/
theorem callTool_uniform_failure_shape_witness :
    (callTool connectedState ("c") ("t") [] timeoutCallEnv).result =
      toolCallFailedResult ("Request tools/call timed out after 60000ms") :=
  ((callTool_uniform_failure_shape connectedState ("c") ("t") [] timeoutCallEnv).2.1
    connectedInst ("Request tools/call timed out after 60000ms")
    (by rfl) (by rfl) (by rfl)).1

/-- C10: when the instance is registered, connected and alive, and the
remote `tools/call` response result object is absent or lacks both the
`content` field and the `isError` field, `callTool` returns the empty
successful result -- empty content and `isError = false` -- rather
than an error. -/
theorem callTool_shapeless_result_success (c : McpClientState) (nm tool : String)
    (args : McpArgs) (env : CallEnv) (inst : McpServerInstance)
    (h1 : alistLookup c.servers nm = some inst) (h2 : inst.connected = true)
    (h3 : inst.exitCode = none)
    (h4 : env.callResult = Except.ok none ∨
          env.callResult = Except.ok (some { content := none, isError := none })) :
    (callTool c nm tool args env).result = { content := [], isError := false } := by
  have hrec : needsReconnect (some inst) = false := by
    simp [needsReconnect, h2, h3]
  have hnc : ¬ inst.connected = false := by simp [h2]
  rcases h4 with h4 | h4 <;>
    simp [callTool, h1, hrec, callToolGo, hnc, h4, normalizeCallResult]

/-- C10 witness: the theorem applied to a concrete connected server
whose remote result object is absent. -/
theorem callTool_shapeless_result_success_witness :
    (callTool connectedState ("c") ("t") [] shapelessCallEnv).result =
      { content := [], isError := false } :=
  callTool_shapeless_result_success connectedState ("c") ("t") [] shapelessCallEnv
    connectedInst (by rfl) (by rfl) (by rfl) (Or.inl (by rfl))

/-! ## Claims C7, C5 -/

/-- C7: within a single instance lifetime, the ids assigned by
successive `sendRequest` registrations (`++instance.requestId`) are
strictly increasing, so no id is ever reused; and at every reachable
state the pending-request map holds at most one entry per id. -/
theorem request_ids_strictly_increasing (evs : List McpEvent) :
    ((runEvents (mkInstance ("srv") none) evs).2.1).Pairwise (· < ·) ∧
    ((runEvents (mkInstance ("srv") none) evs).1).pendingRequests.Nodup := by
  have hinv : InstInv (mkInstance ("srv") none) := by
    refine ⟨?_, ?_, ?_⟩ <;> simp [mkInstance]
  exact ⟨runEvents_ids_pairwise evs _, (runEvents_inv hinv).2.1⟩

/-- C5: a response line carrying an id with no pending entry (already
timed out, already resolved, or never issued) is dispatched as a strict
no-op: the instance state is unchanged and no completion is delivered.
Moreover, over every event sequence from a fresh instance, each pending
entry is settled at most once (the settled ids are pairwise distinct)
and a settled id has neither a pending entry nor an active deadline
timer afterwards — whichever of resolution, rejection or timeout came
first consumed the entry and its timer. -/
theorem response_without_pending_is_noop :
    (∀ (s : McpServerInstance) (id : Nat) (err : Option String),
        id ∉ s.pendingRequests → dispatchResponse s id err = (s, none)) ∧
    (∀ evs : List McpEvent,
        (((runEvents (mkInstance ("srv") none) evs).2.2).map Settlement.sid).Nodup ∧
        (∀ i ∈ ((runEvents (mkInstance ("srv") none) evs).2.2).map Settlement.sid,
            i ∉ (runEvents (mkInstance ("srv") none) evs).1.pendingRequests ∧
            i ∉ (runEvents (mkInstance ("srv") none) evs).1.activeTimers)) := by
  constructor
  · intro s id err h
    simp [dispatchResponse, h]
  · intro evs
    have hinv : InstInv (mkInstance ("srv") none) := by
      refine ⟨?_, ?_, ?_⟩ <;> simp [mkInstance]
    have h := runEvents_settled evs (mkInstance ("srv") none) [] hinv
      (by simp) (by simp)
    have hfin := @runEvents_inv evs (mkInstance ("srv") none) hinv
    constructor
    · simpa using h.2
    · intro i hi
      have h2 := h.1 i (by simpa using hi)
      exact ⟨h2.1, fun hc => h2.1 (hfin.2.2 i hc)⟩

/-- C5 witness: the no-op part of the theorem applied to a concrete
late response: id 7 has no pending entry on `pendingInst`, so
dispatching a response for it changes nothing and settles nothing. -/
theorem response_without_pending_is_noop_witness :
    dispatchResponse pendingInst 7 none = (pendingInst, none) :=
  response_without_pending_is_noop.1 pendingInst 7 none (by decide)

/-! ## Claim C8 -/

/-- C8: the stdout line handler is total — in the model it is a plain
function returning a state and an optional settlement for every line —
and it discards without effect: lines that trim to empty, trimmed lines
not starting with an opening brace (package-runner banners and other
noise), and brace-led lines the JSON parser rejects. An effect on the
correlation state is possible only for a successfully parsed response
that carries an id, and then it is exactly the id dispatch. -/
theorem handleLine_total_discard :
    ∀ (parse : String → Option JsonRpcResponseShape) (s : McpServerInstance)
      (line : String),
    (trimChars line.data = [] → handleLine parse s line = (s, none)) ∧
    (headIsBrace (trimChars line.data) = false → handleLine parse s line = (s, none)) ∧
    (parse (String.mk (trimChars line.data)) = none →
        handleLine parse s line = (s, none)) ∧
    (handleLine parse s line ≠ (s, none) →
        ∃ resp id, parse (String.mk (trimChars line.data)) = some resp ∧
          resp.id = some id ∧
          handleLine parse s line = dispatchResponse s id resp.errorMessage) := by
  intro parse s line
  refine ⟨?_, ?_, ?_, ?_⟩
  · intro h
    simp [handleLine, h]
  · intro h
    by_cases he : trimChars line.data = []
    · simp [handleLine, he]
    · simp [handleLine, he, h]
  · intro h
    by_cases he : trimChars line.data = []
    · simp [handleLine, he]
    · by_cases hb : headIsBrace (trimChars line.data)
      · simp [handleLine, he, hb, h]
      · simp [handleLine, he, hb]
  · intro h
    by_cases he : trimChars line.data = []
    · exact absurd (by simp [handleLine, he]) h
    · by_cases hb : headIsBrace (trimChars line.data)
      · rcases hp : parse (String.mk (trimChars line.data)) with _ | resp
        · exact absurd (by simp [handleLine, he, hb, hp]) h
        · rcases hid : resp.id with _ | id
          · exact absurd (by simp [handleLine, he, hb, hp, hid]) h
          · exact ⟨resp, id, rfl, hid, by simp [handleLine, he, hb, hp, hid]⟩
      · exact absurd (by simp [handleLine, he, hb]) h

/-- C8 witness: the theorem applied to a concrete noise line from a
package runner: it does not start with an opening brace, so the handler
discards it without touching the instance. -/
theorem handleLine_total_discard_witness :
    handleLine alwaysFailJson pendingInst ("npm WARN deprecated") =
      (pendingInst, none) :=
  (handleLine_total_discard alwaysFailJson pendingInst ("npm WARN deprecated")).2.1
    (by decide)

/-! ## Claim C9 -/

/-- C9: the error classifier sends every error string to exactly one of
the four categories, by the branch order of `formatError`: `occupied`
exactly when the lower-cased text contains one of the occupied
substrings; otherwise `notFound` exactly when it contains `not found`
or `enoent`; otherwise `timeout` exactly when it contains `timeout`;
`generic` otherwise. The classification is case-insensitive — it
depends only on the lower-cased text — and it is presentation-only:
`formatError` output is the name prefix plus the fixed message of the
chosen category, `isOccupiedError` coincides with the `occupied`
category, and no state transition of the client model mentions them. -/
theorem classifyError_exactly_one_category :
    ∀ s : String,
    (classifyError s = ErrorCategory.occupied ↔
        occupiedMatch (lowerChars s) = true) ∧
    (classifyError s = ErrorCategory.notFound ↔
        (occupiedMatch (lowerChars s) = false ∧
         notFoundMatch (lowerChars s) = true)) ∧
    (classifyError s = ErrorCategory.timeout ↔
        (occupiedMatch (lowerChars s) = false ∧
         notFoundMatch (lowerChars s) = false ∧
         timeoutMatch (lowerChars s) = true)) ∧
    (classifyError s = ErrorCategory.generic ↔
        (occupiedMatch (lowerChars s) = false ∧
         notFoundMatch (lowerChars s) = false ∧
         timeoutMatch (lowerChars s) = false)) ∧
    (∀ t : String, lowerChars s = lowerChars t →
        classifyError s = classifyError t) ∧
    (∀ nm : Option String,
        formatError s nm = errorNameLead nm ++ categoryMessage (classifyError s) s) ∧
    (isOccupiedError s = (classifyError s == ErrorCategory.occupied)) := by
  intro s
  have hci : ∀ t : String, lowerChars s = lowerChars t →
      classifyError s = classifyError t := by
    intro t hteq
    simp only [classifyError]
    rw [hteq]
  have hfmt : ∀ nm : Option String,
      formatError s nm = errorNameLead nm ++ categoryMessage (classifyError s) s := by
    intro nm
    cases ho : occupiedMatch (lowerChars s) <;>
      cases hn : notFoundMatch (lowerChars s) <;>
        cases ht : timeoutMatch (lowerChars s) <;>
          simp [formatError, classifyError, categoryMessage, ho, hn, ht]
  have hocc : isOccupiedError s = (classifyError s == ErrorCategory.occupied) := by
    cases ho : occupiedMatch (lowerChars s) <;>
      cases hn : notFoundMatch (lowerChars s) <;>
        cases ht : timeoutMatch (lowerChars s) <;>
          simp [isOccupiedError, classifyError, ho, hn, ht]
  refine ⟨?_, ?_, ?_, ?_, hci, hfmt, hocc⟩ <;>
    cases ho : occupiedMatch (lowerChars s) <;>
      cases hn : notFoundMatch (lowerChars s) <;>
        cases ht : timeoutMatch (lowerChars s) <;>
          simp [classifyError, ho, hn, ht]

/-- C9 witness: the classifier theorem applied to a concrete
upper-cased occupied error: `EADDRINUSE` is classified `occupied`. -/
theorem classifyError_exactly_one_category_witness :
    classifyError ("Error: EADDRINUSE") = ErrorCategory.occupied :=
  (classifyError_exactly_one_category ("Error: EADDRINUSE")).1.mpr (by decide)
